import Mathlib

/-!
Shallow embedding of the workflow-editor graph core found in the repository
(class WorkflowEditor in src/unnamed/part_000, with the port-derivation
helpers duplicated in workflow-editor-main.js).  JS Maps become ordered
association lists, JS numbers become exact rationals, fallible paths (JS
property access on undefined) become Option, and rendering / DOM work is
dropped since it never feeds back into the graph state.
-/

namespace WorkflowApp

/-- Point models the JS literal objects holding x and y numbers. -/
structure Point where
  x : ℚ
  y : ℚ
deriving DecidableEq

/-- ConfigField models one entry of a node type's config_schema.fields. -/
structure ConfigField where
  name : String
  default : Option String
deriving DecidableEq

/-- NodeType models a node-type descriptor from the registry; configFields
models config_schema.fields with the absent schema as the empty list. -/
structure NodeType where
  name : String
  display_name : String
  category : String
  configFields : List ConfigField
deriving DecidableEq

/-- Node models the node records stored in this.nodes; description,
continue_on_error and timeout are undefined (none) on freshly created
nodes and only set by loadWorkflow. -/
structure Node where
  id : String
  type : String
  name : String
  position : Point
  config : List (String × String)
  description : Option String
  continue_on_error : Option Bool
  timeout : Option ℕ
  inputs : List String
  outputs : List String
deriving DecidableEq

/-- Connection models the connection records stored in this.connections. -/
structure Connection where
  id : String
  source : String
  sourceHandle : String
  target : String
  targetHandle : String
deriving DecidableEq

/-- ConnectionStart models this.connectionStart (nodeId and handle; the
position field is only used to draw the rubber-band preview and carries no
graph state, so it is omitted). -/
structure ConnectionStart where
  nodeId : String
  handle : String
deriving DecidableEq

/-- DropTarget models what finishConnection reads off the mouse-up event
target: whether it is an input node-handle element, the data-node-id of the
enclosing node element, and the data-handle attribute. -/
structure DropTarget where
  isInputHandle : Bool
  nodeId : String
  handle : String
deriving DecidableEq

/-- mapGet models JS Map.prototype.get on an insertion-ordered association
list (undefined becomes none). -/
def mapGet {α : Type} : List (String × α) → String → Option α
  | [], _ => none
  | (k0, v0) :: rest, k => if k0 = k then some v0 else mapGet rest k

/-- mapSet models JS Map.prototype.set: update in place when the key exists,
append otherwise, preserving insertion order. -/
def mapSet {α : Type} : List (String × α) → String → α → List (String × α)
  | [], k, v => [(k, v)]
  | (k0, v0) :: rest, k, v =>
    if k0 = k then (k, v) :: rest else (k0, v0) :: mapSet rest k v

/-- mapDelete models JS Map.prototype.delete (dropping every entry under the
key; a JS Map holds at most one). -/
def mapDelete {α : Type} (m : List (String × α)) (k : String) : List (String × α) :=
  m.filter fun p => decide (p.1 ≠ k)

/-- jsRound models JS Math.round, which rounds half-way cases toward
positive infinity: the floor of the input shifted by one half (Rat.floor is
the computable floor, equal to the floor bracket by Rat.floor_def). -/
def jsRound (q : ℚ) : ℤ := (q + 1 / 2).floor

/-- snapCoord models one axis of the grid snap
Math.round(x / gridSize) * gridSize. -/
def snapCoord (gridSize q : ℚ) : ℚ := (jsRound (q / gridSize) : ℚ) * gridSize

/-- jsOrString models the JS idiom (v || dflt) on string-or-undefined values:
undefined and the empty string are falsy. -/
def jsOrString (v : Option String) (dflt : String) : String :=
  match v with
  | some s => if s = "" then dflt else s
  | none => dflt

/-- jsOrNat models the JS idiom (v || dflt) on number-or-undefined values:
undefined and 0 are falsy. -/
def jsOrNat (v : Option ℕ) (dflt : ℕ) : ℕ :=
  match v with
  | some n => if n = 0 then dflt else n
  | none => dflt

/-- natDigits renders n in decimal onto acc, most significant digit first;
the fuel argument (any bound at or above n) keeps the recursion structural. -/
def natDigits : ℕ → ℕ → List Char → List Char
  | 0, _, acc => acc
  | _ + 1, 0, acc => acc
  | fuel + 1, n, acc => natDigits fuel (n / 10) (Char.ofNat (48 + n % 10) :: acc)

/-- natStr models the decimal rendering a JS template literal applies to a
nonnegative number. -/
def natStr (n : ℕ) : String :=
  if n = 0 then "0" else String.mk (natDigits n n [])

/-- mkNodeId models the template literal node_(counter) used by createNode,
duplicateNode and pasteNode. -/
def mkNodeId (k : ℕ) : String := "node_" ++ natStr k

/-- mkConnId models the generated connection id; the source draws it from
Date.now() and Math.random(), which we abstract as a fresh-id counter so
that ids are concrete and distinct. -/
def mkConnId (k : ℕ) : String := "connection_" ++ natStr k

/-- splitChars models String.prototype.split on the underscore separator,
working on the character list of the string. -/
def splitChars : List Char → List (List Char)
  | [] => [[]]
  | c :: rest =>
    if c = '_' then [] :: splitChars rest
    else
      match splitChars rest with
      | [] => [[c]]
      | h :: t => (c :: h) :: t

/-- jsParseIntChars models JS parseInt on a nonnegative decimal string: it
reads the leading run of digits and yields NaN (none) when there is none. -/
def jsParseIntChars (cs : List Char) : Option ℕ :=
  let ds := cs.takeWhile Char.isDigit
  if ds.isEmpty then none
  else some (ds.foldl (fun acc c => acc * 10 + (c.toNat - 48)) 0)

/-- nodeIdNum models parseInt(id.split(underscore)[1]) from loadWorkflow;
none stands for NaN (every comparison against NaN is false). -/
def nodeIdNum (s : String) : Option ℕ :=
  match splitChars s.data with
  | _ :: second :: _ => jsParseIntChars second
  | _ => none

/-- WorkflowEditor models the mutable fields of the editor class that carry
graph, viewport or gesture state; DOM handles, network ids and the CSRF
token are rendering or transport concerns with no effect on this state.
connSeq is the fresh-id source abstracting Date.now()+Math.random(). -/
structure WorkflowEditor where
  selectedNode : Option String
  selectedConnection : Option String
  isDragging : Bool
  isPanning : Bool
  isConnecting : Bool
  connectionStart : Option ConnectionStart
  dragOffset : Point
  lastMousePos : Point
  nodeCounter : ℕ
  clipboard : Option Node
  canvasOffset : Point
  zoomLevel : ℚ
  gridSize : ℚ
  nodeTypes : List (String × NodeType)
  nodes : List (String × Node)
  connections : List (String × Connection)
  connSeq : ℕ
  isDirty : Bool
deriving DecidableEq

/-- initialEditor models the constructor defaults of the editor class. -/
def initialEditor : WorkflowEditor where
  selectedNode := none
  selectedConnection := none
  isDragging := false
  isPanning := false
  isConnecting := false
  connectionStart := none
  dragOffset := ⟨0, 0⟩
  lastMousePos := ⟨0, 0⟩
  nodeCounter := 0
  clipboard := none
  canvasOffset := ⟨0, 0⟩
  zoomLevel := 1
  gridSize := 20
  nodeTypes := []
  nodes := []
  connections := []
  connSeq := 0
  isDirty := false

/-- markDirty models this.markDirty (state part only). -/
def markDirty (st : WorkflowEditor) : WorkflowEditor := { st with isDirty := true }

/-- deselectAll models this.deselectAll: both selections cleared (the DOM
class churn and the properties panel are rendering only). -/
def deselectAll (st : WorkflowEditor) : WorkflowEditor :=
  { st with selectedNode := none, selectedConnection := none }

/-- selectNode models this.selectNode: deselect everything, then record the
new node selection. -/
def selectNode (st : WorkflowEditor) (nodeId : String) : WorkflowEditor :=
  { deselectAll st with selectedNode := some nodeId }

/-- getNodeInputs models the identically defined helpers of both editor
files: trigger-category types get no inputs, every other type one. -/
def getNodeInputs (nodeType : NodeType) : List String :=
  if nodeType.category = "trigger" then [] else ["input"]

/-- getNodeOutputs models the identically defined helpers of both editor
files: condition gets true and false, switch its own branch (same value),
every other type one generic output. -/
def getNodeOutputs (nodeType : NodeType) : List String :=
  if nodeType.name = "condition" then ["true", "false"]
  else if nodeType.name = "switch" then ["output"]
  else ["output"]

/-- getNodeInputsJs lifts getNodeInputs over a possibly-undefined registry
entry: the source dereferences nodeType.category, so an undefined descriptor
has no defined result. -/
def getNodeInputsJs (nodeType : Option NodeType) : Option (List String) :=
  nodeType.map getNodeInputs

/-- getNodeOutputsJs lifts getNodeOutputs the same way as getNodeInputsJs. -/
def getNodeOutputsJs (nodeType : Option NodeType) : Option (List String) :=
  nodeType.map getNodeOutputs

/-- getDefaultConfig models this.getDefaultConfig: fields carrying a default
populate the fresh config object in schema order. -/
def getDefaultConfig (nodeType : NodeType) : List (String × String) :=
  nodeType.configFields.foldl
    (fun cfg f =>
      match f.default with
      | some d => mapSet cfg f.name d
      | none => cfg)
    []

/-- createNode models this.createNode: allocate node_(++nodeCounter), build
the node record, insert it, select it and mark the editor dirty; it returns
the new id. -/
def createNode (st : WorkflowEditor) (nodeType : NodeType) (position : Point) :
    WorkflowEditor × String :=
  let counter := st.nodeCounter + 1
  let nodeId := mkNodeId counter
  let node : Node :=
    { id := nodeId
      type := nodeType.name
      name := nodeType.display_name
      position := position
      config := getDefaultConfig nodeType
      description := none
      continue_on_error := none
      timeout := none
      inputs := getNodeInputs nodeType
      outputs := getNodeOutputs nodeType }
  let st1 := { st with nodeCounter := counter, nodes := mapSet st.nodes nodeId node }
  (markDirty (selectNode st1 nodeId), nodeId)

/-- runAddNodes iterates createNode over a list of requests, collecting the
allocated ids in order. -/
def runAddNodes (st : WorkflowEditor) :
    List (NodeType × Point) → WorkflowEditor × List String
  | [] => (st, [])
  | (t, p) :: rest =>
    let r := createNode st t p
    let r2 := runAddNodes r.1 rest
    (r2.1, r.2 :: r2.2)

/-- addConnection models this.addConnection: it builds the connection record
from its four arguments and stores it unconditionally; there is no
validation of node existence, ports or self-loops in this method. -/
def addConnection (st : WorkflowEditor)
    (sourceNodeId sourceHandle targetNodeId targetHandle : String) :
    WorkflowEditor × String :=
  let connectionId := mkConnId (st.connSeq + 1)
  let connection : Connection :=
    { id := connectionId
      source := sourceNodeId
      sourceHandle := sourceHandle
      target := targetNodeId
      targetHandle := targetHandle }
  (markDirty
    { st with
      connSeq := st.connSeq + 1
      connections := mapSet st.connections connectionId connection },
    connectionId)

/-- finishConnection models this.finishConnection: stop connecting, and only
when the mouse-up target is an input handle on a node other than the one the
gesture started from does it call addConnection; connectionStart is cleared
in every case. -/
def finishConnection (st : WorkflowEditor) (target : Option DropTarget) :
    WorkflowEditor :=
  let st1 := { st with isConnecting := false }
  let st2 :=
    match target with
    | some t =>
      if t.isInputHandle then
        match st1.connectionStart with
        | some cs =>
          if t.nodeId ≠ cs.nodeId then
            (addConnection st1 cs.nodeId cs.handle t.nodeId t.handle).1
          else st1
        | none => st1
      else st1
    | none => st1
  { st2 with connectionStart := none }

/-- deleteConnection models this.deleteConnection: drop the entry from the
map (a no-op when the id is absent — the source raises nothing), clear the
selection if it pointed at this connection, and mark dirty. -/
def deleteConnection (st : WorkflowEditor) (connectionId : String) :
    WorkflowEditor :=
  let st1 := { st with connections := mapDelete st.connections connectionId }
  let st2 :=
    if st1.selectedConnection = some connectionId then deselectAll st1 else st1
  markDirty st2

/-- deleteNode models this.deleteNode: collect the ids of every connection
whose source or target is the node, delete them through deleteConnection,
drop the node, deselect and mark dirty. -/
def deleteNode (st : WorkflowEditor) (nodeId : String) : WorkflowEditor :=
  let connectionsToRemove :=
    (st.connections.filter fun p =>
      decide (p.2.source = nodeId ∨ p.2.target = nodeId)).map Prod.fst
  let st1 := connectionsToRemove.foldl deleteConnection st
  let st2 := { st1 with nodes := mapDelete st1.nodes nodeId }
  markDirty (deselectAll st2)

/-- onCanvasMouseMove models this.onCanvasMouseMove given the client mouse
point: the pan branch shifts canvasOffset, and the drag branch moves the
selected node by the zoom-scaled delta and snaps both coordinates to the
grid on this very move; the isConnecting branch only redraws the preview
curve and touches no state. -/
def onCanvasMouseMove (st : WorkflowEditor) (client : Point) : WorkflowEditor :=
  let st1 :=
    if st.isPanning then
      { st with
        canvasOffset := ⟨st.canvasOffset.x + (client.x - st.lastMousePos.x),
                         st.canvasOffset.y + (client.y - st.lastMousePos.y)⟩
        lastMousePos := client }
    else st
  if st1.isDragging then
    match st1.selectedNode with
    | some selId =>
      let st2 :=
        match mapGet st1.nodes selId with
        | some node =>
          let px := snapCoord st1.gridSize
            (node.position.x + (client.x - st1.lastMousePos.x) / st1.zoomLevel)
          let py := snapCoord st1.gridSize
            (node.position.y + (client.y - st1.lastMousePos.y) / st1.zoomLevel)
          { st1 with nodes := mapSet st1.nodes selId { node with position := ⟨px, py⟩ } }
        | none => st1
      { st2 with lastMousePos := client }
    | none => st1
  else st1

/-- onCanvasMouseUp models this.onCanvasMouseUp: end panning, end dragging
(marking dirty, with no snap of its own), and hand an active connection
gesture to finishConnection. -/
def onCanvasMouseUp (st : WorkflowEditor) (target : Option DropTarget) :
    WorkflowEditor :=
  let st1 := if st.isPanning then { st with isPanning := false } else st
  let st2 := if st1.isDragging then markDirty { st1 with isDragging := false } else st1
  if st2.isConnecting then finishConnection st2 target else st2

/-- zoomAt models the zoom step of this.onCanvasWheel with the scale factor
as a parameter: multiply the zoom, clamp to the 0.1 to 3 range, and move
canvasOffset so the mouse point keeps its world position. -/
def zoomAt (st : WorkflowEditor) (mouse : Point) (scaleFactor : ℚ) :
    WorkflowEditor :=
  let newZoom := max (1 / 10) (min 3 (st.zoomLevel * scaleFactor))
  let scaleChange := newZoom / st.zoomLevel
  { st with
    canvasOffset := ⟨mouse.x - (mouse.x - st.canvasOffset.x) * scaleChange,
                     mouse.y - (mouse.y - st.canvasOffset.y) * scaleChange⟩
    zoomLevel := newZoom }

/-- onCanvasWheel models this.onCanvasWheel: the wheel direction picks the
fixed 0.9 or 1.1 factor and the rest is zoomAt. -/
def onCanvasWheel (st : WorkflowEditor) (mouse : Point) (deltaY : ℚ) :
    WorkflowEditor :=
  zoomAt st mouse (if 0 < deltaY then 9 / 10 else 11 / 10)

/-- NodeData models one entry of workflowData.nodes as it arrives from the
wire; fields the source guards with the or-default idiom are Options. -/
structure NodeData where
  id : String
  type : String
  name : String
  position : Point
  config : Option (List (String × String))
  description : Option String
  continue_on_error : Option Bool
  timeout : Option ℕ
deriving DecidableEq

/-- ConnectionData models one entry of workflowData.connections. -/
structure ConnectionData where
  id : String
  source : String
  sourceHandle : Option String
  target : String
  targetHandle : Option String
deriving DecidableEq

/-- WorkflowData models the serialized definition object handed to the
editor (the snapshot restored by loadWorkflow). -/
structure WorkflowData where
  nodes : List NodeData
  connections : List ConnectionData
deriving DecidableEq

/-- loadWorkflowNode models one iteration of the node loop in
this.loadWorkflow: rebuild the node record with or-defaults, derive the
ports from the registry entry (undefined entry: no defined result), store
the node, and raise nodeCounter to the parsed numeric part of the id when
that parse exceeds it. -/
def loadWorkflowNode (s : WorkflowEditor) (nd : NodeData) :
    Option WorkflowEditor := do
  let inputs ← getNodeInputsJs (mapGet s.nodeTypes nd.type)
  let outputs ← getNodeOutputsJs (mapGet s.nodeTypes nd.type)
  let node : Node :=
    { id := nd.id
      type := nd.type
      name := nd.name
      position := nd.position
      config := nd.config.getD []
      description := some (jsOrString nd.description "")
      continue_on_error := some (nd.continue_on_error.getD false)
      timeout := some (jsOrNat nd.timeout 30)
      inputs := inputs
      outputs := outputs }
  let s1 := { s with nodes := mapSet s.nodes node.id node }
  let s2 :=
    match nodeIdNum node.id with
    | some m => if s1.nodeCounter < m then { s1 with nodeCounter := m } else s1
    | none => s1
  return s2

/-- loadWorkflowConnection models one iteration of the connection loop in
this.loadWorkflow: missing or falsy handles fall back to output and input,
and the entry is stored without any further check. -/
def loadWorkflowConnection (s : WorkflowEditor) (cd : ConnectionData) :
    WorkflowEditor :=
  let connection : Connection :=
    { id := cd.id
      source := cd.source
      sourceHandle := jsOrString cd.sourceHandle "output"
      target := cd.target
      targetHandle := jsOrString cd.targetHandle "input" }
  { s with connections := mapSet s.connections connection.id connection }

/-- loadWorkflow models this.loadWorkflow on the constructor-supplied
snapshot: the node loop first (failing altogether when a node's type is not
registered), then the deferred connection loop. -/
def loadWorkflow (s : WorkflowEditor) (wd : WorkflowData) :
    Option WorkflowEditor := do
  let s1 ← List.foldlM loadWorkflowNode s wd.nodes
  return List.foldl loadWorkflowConnection s1 wd.connections

namespace MainEditor

/-- getNodeInputs embeds the second implementation, from
workflow-editor-main.js, to compare with the inlined editor's copy. -/
def getNodeInputs (nodeType : NodeType) : List String :=
  if nodeType.category = "trigger" then [] else ["input"]

/-- getNodeOutputs embeds the second implementation, from
workflow-editor-main.js. -/
def getNodeOutputs (nodeType : NodeType) : List String :=
  if nodeType.name = "condition" then ["true", "false"]
  else if nodeType.name = "switch" then ["output"]
  else ["output"]

end MainEditor

/-! Association-list lemmas for the JS Map model. -/

theorem mapGet_mapSet_self {α : Type} (m : List (String × α)) (k : String) (v : α) :
    mapGet (mapSet m k v) k = some v := by
  induction m with
  | nil => simp [mapSet, mapGet]
  | cons hd tl ih =>
    obtain ⟨k0, v0⟩ := hd
    by_cases h : k0 = k
    · simp [mapSet, h, mapGet]
    · simp [mapSet, h, mapGet, ih]

theorem mapGet_mapSet_ne {α : Type} (m : List (String × α)) (k k' : String) (v : α)
    (h : k' ≠ k) : mapGet (mapSet m k v) k' = mapGet m k' := by
  have hkk : ¬k = k' := fun hc => h hc.symm
  induction m with
  | nil => simp [mapSet, mapGet, hkk]
  | cons hd tl ih =>
    obtain ⟨k0, v0⟩ := hd
    by_cases hk : k0 = k
    · subst hk
      simp [mapSet, mapGet, hkk]
    · simp only [mapSet, if_neg hk, mapGet]
      by_cases hk' : k0 = k'
      · simp [hk']
      · simp [hk', ih]

theorem mem_mapSet {α : Type} {m : List (String × α)} {k : String} {v : α}
    {p : String × α} (h : p ∈ mapSet m k v) : p ∈ m ∨ p = (k, v) := by
  induction m with
  | nil => simpa [mapSet] using h
  | cons hd tl ih =>
    obtain ⟨k0, v0⟩ := hd
    by_cases hk : k0 = k
    · simp only [mapSet, if_pos hk, List.mem_cons] at h
      rcases h with h | h
      · exact Or.inr h
      · exact Or.inl (List.mem_cons_of_mem _ h)
    · simp only [mapSet, if_neg hk, List.mem_cons] at h
      rcases h with h | h
      · exact Or.inl (by simp [h])
      · rcases ih h with h2 | h2
        · exact Or.inl (List.mem_cons_of_mem _ h2)
        · exact Or.inr h2

theorem mapGet_eq_none {α : Type} {m : List (String × α)} {k : String} :
    mapGet m k = none ↔ ∀ p ∈ m, p.1 ≠ k := by
  induction m with
  | nil => simp [mapGet]
  | cons hd tl ih =>
    obtain ⟨k0, v0⟩ := hd
    by_cases h : k0 = k
    · simp [mapGet, h]
    · simp [mapGet, h, ih]

theorem mapDelete_of_get_none {α : Type} {m : List (String × α)} {k : String}
    (h : mapGet m k = none) : mapDelete m k = m := by
  rw [mapGet_eq_none] at h
  simpa [mapDelete, List.filter_eq_self] using h

theorem mapGet_mapDelete_self {α : Type} (m : List (String × α)) (k : String) :
    mapGet (mapDelete m k) k = none := by
  induction m with
  | nil => simp [mapDelete, mapGet]
  | cons hd tl ih =>
    obtain ⟨k0, v0⟩ := hd
    by_cases h : k0 = k
    · simpa [mapDelete, h] using ih
    · simpa [mapDelete, mapGet, h] using ih

theorem mapGet_mapDelete_ne {α : Type} (m : List (String × α)) (k k' : String)
    (h : k' ≠ k) : mapGet (mapDelete m k) k' = mapGet m k' := by
  induction m with
  | nil => simp [mapDelete]
  | cons hd tl ih =>
    obtain ⟨k0, v0⟩ := hd
    by_cases hk : k0 = k
    · subst hk
      have : k0 ≠ k' := fun hc => h hc.symm
      simpa [mapDelete, mapGet, this] using ih
    · by_cases hk' : k0 = k'
      · subst hk'
        simp [mapDelete, mapGet, hk]
      · simpa [mapDelete, mapGet, hk, hk'] using ih

theorem keys_nodup_ext {α : Type} {m : List (String × α)}
    (hnd : (m.map Prod.fst).Nodup) {p q : String × α}
    (hp : p ∈ m) (hq : q ∈ m) (hk : p.1 = q.1) : p = q := by
  induction m with
  | nil => cases hp
  | cons hd tl ih =>
    rw [List.map_cons, List.nodup_cons] at hnd
    rcases List.mem_cons.1 hp with hp1 | hp1 <;>
      rcases List.mem_cons.1 hq with hq1 | hq1
    · exact hp1.trans hq1.symm
    · exfalso
      apply hnd.1
      have hq2 : q.1 ∈ tl.map Prod.fst := List.mem_map_of_mem Prod.fst hq1
      rwa [← hk, hp1] at hq2
    · exfalso
      apply hnd.1
      have hp2 : p.1 ∈ tl.map Prod.fst := List.mem_map_of_mem Prod.fst hp1
      rwa [hk, hq1] at hp2
    · exact ih hnd.2 hp1 hq1

/-! Lemmas about the decimal node ids and their parse. -/

theorem digitChar_isDigit {d : ℕ} (hd : d < 10) :
    (Char.ofNat (48 + d)).isDigit = true := by
  interval_cases d <;> decide

theorem digitChar_toNat {d : ℕ} (hd : d < 10) :
    (Char.ofNat (48 + d)).toNat - 48 = d := by
  interval_cases d <;> decide

theorem natDigits_suffix (fuel : ℕ) :
    ∀ (n : ℕ) (acc : List Char), ∃ pre, natDigits fuel n acc = pre ++ acc := by
  induction fuel with
  | zero => exact fun n acc => ⟨[], rfl⟩
  | succ f ih =>
    intro n acc
    cases n with
    | zero => exact ⟨[], rfl⟩
    | succ m =>
      obtain ⟨pre, hp⟩ := ih ((m + 1) / 10) (Char.ofNat (48 + (m + 1) % 10) :: acc)
      exact ⟨pre ++ [Char.ofNat (48 + (m + 1) % 10)], by simp [natDigits, hp]⟩

theorem natDigits_all_digits (fuel : ℕ) :
    ∀ (n : ℕ) (acc : List Char), (∀ c ∈ acc, c.isDigit = true) →
      ∀ c ∈ natDigits fuel n acc, c.isDigit = true := by
  induction fuel with
  | zero => exact fun n acc hacc => hacc
  | succ f ih =>
    intro n acc hacc
    cases n with
    | zero => exact hacc
    | succ m =>
      apply ih
      intro c hc
      rcases List.mem_cons.1 hc with h | h
      · subst h; exact digitChar_isDigit (Nat.mod_lt _ (by norm_num))
      · exact hacc c h

theorem natDigits_foldl (fuel : ℕ) :
    ∀ (n : ℕ) (acc : List Char), n ≤ fuel →
      (natDigits fuel n acc).foldl (fun a c => a * 10 + (c.toNat - 48)) 0 =
        acc.foldl (fun a c => a * 10 + (c.toNat - 48)) n := by
  induction fuel with
  | zero =>
    intro n acc hn
    interval_cases n
    rfl
  | succ f ih =>
    intro n acc hn
    cases n with
    | zero => rfl
    | succ m =>
      have h10 : (m + 1) / 10 ≤ f := by
        have := Nat.div_lt_self (Nat.succ_pos m) (by norm_num : (1 : ℕ) < 10)
        omega
      rw [show natDigits (f + 1) (m + 1) acc =
            natDigits f ((m + 1) / 10) (Char.ofNat (48 + (m + 1) % 10) :: acc) from rfl]
      rw [ih _ _ h10]
      simp only [List.foldl_cons]
      rw [digitChar_toNat (Nat.mod_lt _ (by norm_num))]
      congr 1
      omega

theorem natStr_data (n : ℕ) :
    (natStr n).data = if n = 0 then ['0'] else natDigits n n [] := by
  unfold natStr
  split <;> rfl

theorem natStr_data_ne_nil (n : ℕ) : (natStr n).data ≠ [] := by
  rw [natStr_data]
  split
  · simp
  · rename_i hn
    cases n with
    | zero => exact absurd rfl hn
    | succ m =>
      rw [show natDigits (m + 1) (m + 1) [] =
            natDigits m ((m + 1) / 10) [Char.ofNat (48 + (m + 1) % 10)] from rfl]
      obtain ⟨pre, hp⟩ := natDigits_suffix m ((m + 1) / 10) [Char.ofNat (48 + (m + 1) % 10)]
      rw [hp]
      simp

theorem natStr_all_digits (n : ℕ) : ∀ c ∈ (natStr n).data, c.isDigit = true := by
  rw [natStr_data]
  split
  · intro c hc
    rw [List.mem_singleton] at hc
    subst hc
    decide
  · exact natDigits_all_digits n n [] (by simp)

theorem jsParse_natStr (n : ℕ) : jsParseIntChars (natStr n).data = some n := by
  unfold jsParseIntChars
  have htake : (natStr n).data.takeWhile Char.isDigit = (natStr n).data :=
    List.takeWhile_eq_self_iff.2 (natStr_all_digits n)
  rw [htake]
  rw [if_neg (by simpa using natStr_data_ne_nil n)]
  congr 1
  rw [natStr_data]
  split
  · rename_i h
    rw [h]
    rfl
  · exact (natDigits_foldl n n [] le_rfl).trans rfl

theorem splitChars_no_underscore :
    ∀ (cs : List Char), (∀ c ∈ cs, c ≠ '_') → splitChars cs = [cs] := by
  intro cs
  induction cs with
  | nil => intro; rfl
  | cons c rest ih =>
    intro h
    have hc : c ≠ '_' := h c (List.mem_cons_self _ _)
    rw [show splitChars (c :: rest) =
          if c = '_' then [] :: splitChars rest
          else
            match splitChars rest with
            | [] => [[c]]
            | h :: t => (c :: h) :: t
        from rfl]
    rw [if_neg hc, ih fun c hc2 => h c (List.mem_cons_of_mem _ hc2)]

theorem data_mkNodeId (k : ℕ) :
    (mkNodeId k).data = 'n' :: 'o' :: 'd' :: 'e' :: '_' :: (natStr k).data := by
  show ("node_" ++ natStr k).data = _
  rw [String.data_append]
  rfl

theorem splitChars_node_underscore (ds : List Char) :
    splitChars ('n' :: 'o' :: 'd' :: 'e' :: '_' :: ds) =
      ['n', 'o', 'd', 'e'] :: splitChars ds := by
  rfl

theorem nodeIdNum_mkNodeId (k : ℕ) : nodeIdNum (mkNodeId k) = some k := by
  unfold nodeIdNum
  rw [data_mkNodeId, splitChars_node_underscore,
    splitChars_no_underscore (natStr k).data fun c hc he => by
      have := natStr_all_digits k c hc
      rw [he] at this
      exact absurd this (by decide)]
  exact jsParse_natStr k

/-! Field-level lemmas about the store operations. -/

theorem deleteConnection_connections (st : WorkflowEditor) (cid : String) :
    (deleteConnection st cid).connections = mapDelete st.connections cid := by
  unfold deleteConnection markDirty deselectAll
  dsimp only
  split <;> rfl

theorem deleteConnection_nodes (st : WorkflowEditor) (cid : String) :
    (deleteConnection st cid).nodes = st.nodes := by
  unfold deleteConnection markDirty deselectAll
  dsimp only
  split <;> rfl

theorem deleteConnection_selected_ne (st : WorkflowEditor) (cid : String) :
    (deleteConnection st cid).selectedConnection ≠ some cid := by
  unfold deleteConnection markDirty deselectAll
  dsimp only
  split
  · simp
  · rename_i h
    simpa using h

theorem foldl_deleteConnection_connections (ids : List String) :
    ∀ st : WorkflowEditor,
      (ids.foldl deleteConnection st).connections =
        ids.foldl (fun l id => mapDelete l id) st.connections := by
  induction ids with
  | nil => intro st; rfl
  | cons i rest ih =>
    intro st
    rw [List.foldl_cons, List.foldl_cons, ih, deleteConnection_connections]

theorem foldl_deleteConnection_nodes (ids : List String) :
    ∀ st : WorkflowEditor, (ids.foldl deleteConnection st).nodes = st.nodes := by
  induction ids with
  | nil => intro st; rfl
  | cons i rest ih =>
    intro st
    rw [List.foldl_cons, ih, deleteConnection_nodes]

theorem foldl_mapDelete {α : Type} (ids : List String) :
    ∀ l : List (String × α),
      ids.foldl (fun l id => mapDelete l id) l =
        l.filter fun p => decide (p.1 ∉ ids) := by
  induction ids with
  | nil =>
    intro l
    simp [List.filter_eq_self]
  | cons i rest ih =>
    intro l
    rw [List.foldl_cons, ih]
    unfold mapDelete
    rw [List.filter_filter]
    apply List.filter_congr
    intro p _
    simp only [List.mem_cons, not_or, decide_not, Bool.and_eq_true, decide_eq_true_eq,
      Bool.not_eq_true', decide_eq_false_iff_not, Decidable.not_not]
    by_cases h1 : p.1 = i <;> by_cases h2 : p.1 ∈ rest <;> simp [h1, h2]

theorem deleteNode_connections (st : WorkflowEditor) (nodeId : String)
    (hnd : (st.connections.map Prod.fst).Nodup) :
    (deleteNode st nodeId).connections =
      st.connections.filter fun p =>
        decide ¬(p.2.source = nodeId ∨ p.2.target = nodeId) := by
  unfold deleteNode markDirty deselectAll
  dsimp only
  rw [foldl_deleteConnection_connections, foldl_mapDelete]
  apply List.filter_congr
  intro p hp
  have hiff : (p.1 ∈ (st.connections.filter fun q =>
      decide (q.2.source = nodeId ∨ q.2.target = nodeId)).map Prod.fst) ↔
      (p.2.source = nodeId ∨ p.2.target = nodeId) := by
    constructor
    · intro hmem
      rcases List.mem_map.1 hmem with ⟨q, hq, hqk⟩
      rcases List.mem_filter.1 hq with ⟨hql, hqp⟩
      have : q = p := keys_nodup_ext hnd hql hp hqk
      subst this
      exact of_decide_eq_true hqp
    · intro htouch
      exact List.mem_map_of_mem Prod.fst
        (List.mem_filter.2 ⟨hp, decide_eq_true htouch⟩)
  exact decide_eq_decide.mpr (not_congr hiff)

theorem deleteNode_nodes (st : WorkflowEditor) (nodeId : String) :
    (deleteNode st nodeId).nodes = mapDelete st.nodes nodeId := by
  unfold deleteNode markDirty deselectAll
  dsimp only
  rw [foldl_deleteConnection_nodes]

/-! Lemmas about loadWorkflow and createNode. -/

theorem loadWorkflowNode_none {s : WorkflowEditor} {nd : NodeData}
    (h : mapGet s.nodeTypes nd.type = none) : loadWorkflowNode s nd = none := by
  simp [loadWorkflowNode, h, getNodeInputsJs]

theorem loadWorkflowNode_some {s s' : WorkflowEditor} {nd : NodeData}
    (h : loadWorkflowNode s nd = some s') :
    s'.nodeTypes = s.nodeTypes ∧ s'.connections = s.connections ∧
      s.nodeCounter ≤ s'.nodeCounter ∧
      ∀ m, nodeIdNum nd.id = some m → m ≤ s'.nodeCounter := by
  cases hreg : mapGet s.nodeTypes nd.type with
  | none => rw [loadWorkflowNode_none hreg] at h; cases h
  | some t =>
    simp only [loadWorkflowNode, hreg, getNodeInputsJs, getNodeOutputsJs,
      Option.map_some, Option.bind_eq_bind, Option.some_bind] at h
    cases hnum : nodeIdNum nd.id with
    | none =>
      simp only [hnum] at h
      cases h
      exact ⟨rfl, rfl, le_rfl, fun m hm => by cases hm⟩
    | some m0 =>
      simp only [hnum] at h
      split at h <;> cases h
      · rename_i hlt
        refine ⟨rfl, rfl, le_of_lt hlt, fun m hm => ?_⟩
        cases hm
        exact le_rfl
      · rename_i hlt
        refine ⟨rfl, rfl, le_rfl, fun m hm => ?_⟩
        cases hm
        show m0 ≤ s.nodeCounter
        omega

theorem foldlM_loadNodes_some {l : List NodeData} :
    ∀ {s s' : WorkflowEditor},
      List.foldlM loadWorkflowNode s l = some s' →
      s'.nodeTypes = s.nodeTypes ∧ s'.connections = s.connections ∧
        s.nodeCounter ≤ s'.nodeCounter ∧
        ∀ nd ∈ l, ∀ m, nodeIdNum nd.id = some m → m ≤ s'.nodeCounter := by
  induction l with
  | nil =>
    intro s s' h
    cases h
    exact ⟨rfl, rfl, le_rfl, by simp⟩
  | cons nd rest ih =>
    intro s s' h
    rw [List.foldlM_cons] at h
    cases h1 : loadWorkflowNode s nd with
    | none => rw [h1] at h; cases h
    | some s1 =>
      rw [h1] at h
      obtain ⟨ht1, hc1, hm1, hid1⟩ := loadWorkflowNode_some h1
      obtain ⟨ht2, hc2, hm2, hid2⟩ := ih h
      refine ⟨ht2.trans ht1, hc2.trans hc1, hm1.trans hm2, ?_⟩
      intro nd2 hnd2 m hm
      rcases List.mem_cons.1 hnd2 with h2 | h2
      · subst h2
        exact (hid1 m hm).trans hm2
      · exact hid2 nd2 h2 m hm

theorem foldlM_loadNodes_none {l : List NodeData} {nd : NodeData}
    (hmem : nd ∈ l) :
    ∀ {s : WorkflowEditor}, mapGet s.nodeTypes nd.type = none →
      List.foldlM loadWorkflowNode s l = none := by
  induction l with
  | nil => cases hmem
  | cons hd rest ih =>
    intro s hreg
    rw [List.foldlM_cons]
    rcases List.mem_cons.1 hmem with h | h
    · subst h
      rw [loadWorkflowNode_none hreg]
      rfl
    · cases h1 : loadWorkflowNode s hd with
      | none => rfl
      | some s1 =>
        have ht := (loadWorkflowNode_some h1).1
        have := ih h (ht ▸ hreg)
        simp [this]

theorem foldl_loadConnections_handles (cds : List ConnectionData) :
    ∀ s : WorkflowEditor,
      (∀ p ∈ s.connections, p.2.sourceHandle ≠ "" ∧ p.2.targetHandle ≠ "") →
      ∀ p ∈ (cds.foldl loadWorkflowConnection s).connections,
        p.2.sourceHandle ≠ "" ∧ p.2.targetHandle ≠ "" := by
  induction cds with
  | nil => exact fun s h => h
  | cons cd rest ih =>
    intro s hs
    apply ih
    intro p hp
    rcases mem_mapSet hp with h | h
    · exact hs p h
    · subst h
      constructor
      · show jsOrString cd.sourceHandle "output" ≠ ""
        unfold jsOrString
        cases cd.sourceHandle with
        | none => decide
        | some v =>
          dsimp only
          split
          · decide
          · assumption
      · show jsOrString cd.targetHandle "input" ≠ ""
        unfold jsOrString
        cases cd.targetHandle with
        | none => decide
        | some v =>
          dsimp only
          split
          · decide
          · assumption

theorem loadWorkflow_elim {s s' : WorkflowEditor} {wd : WorkflowData}
    (h : loadWorkflow s wd = some s') :
    ∃ s1, List.foldlM loadWorkflowNode s wd.nodes = some s1 ∧
      s' = List.foldl loadWorkflowConnection s1 wd.connections := by
  cases h1 : List.foldlM loadWorkflowNode s wd.nodes with
  | none => rw [loadWorkflow, h1] at h; cases h
  | some s1 =>
    rw [loadWorkflow, h1] at h
    exact ⟨s1, rfl, by cases h; rfl⟩

theorem foldl_loadConnections_nodeCounter (cds : List ConnectionData) :
    ∀ s : WorkflowEditor,
      (cds.foldl loadWorkflowConnection s).nodeCounter = s.nodeCounter := by
  induction cds with
  | nil => exact fun s => rfl
  | cons cd rest ih => exact fun s => ih _

theorem runAddNodes_ids {reqs : List (NodeType × Point)} :
    ∀ {st : WorkflowEditor} {id : String}, id ∈ (runAddNodes st reqs).2 →
      ∃ j, id = mkNodeId j ∧ st.nodeCounter < j := by
  induction reqs with
  | nil => intro st id h; cases h
  | cons r rest ih =>
    intro st id h
    rcases List.mem_cons.1 h with h1 | h1
    · exact ⟨st.nodeCounter + 1, h1, Nat.lt_succ_self _⟩
    · obtain ⟨j, hj, hjlt⟩ := ih h1
      refine ⟨j, hj, lt_trans (Nat.lt_succ_self _) ?_⟩
      simpa [createNode] using hjlt

theorem markDirty_eq_self {st : WorkflowEditor} (h : st.isDirty = true) :
    markDirty st = st := by
  cases st
  simp_all [markDirty]

theorem deleteConnection_isDirty (st : WorkflowEditor) (cid : String) :
    (deleteConnection st cid).isDirty = true := rfl

theorem deleteConnection_of_missing {st : WorkflowEditor} {cid : String}
    (h1 : mapGet st.connections cid = none)
    (h2 : st.selectedConnection ≠ some cid) (h3 : st.isDirty = true) :
    deleteConnection st cid = st := by
  unfold deleteConnection
  rw [mapDelete_of_get_none h1]
  dsimp only
  rw [if_neg h2]
  exact markDirty_eq_self h3

/-! Concrete fixtures evaluated by the witnesses and counterexamples. -/

/-- triggerType is the built-in webhook_trigger descriptor (category
trigger), as registered by the fallback catalog. -/
def triggerType : NodeType := ⟨"webhook_trigger", "Webhook Trigger", "trigger", []⟩

/-- dataType is the built-in http_request descriptor (category data). -/
def dataType : NodeType := ⟨"http_request", "HTTP Request", "data", []⟩

/-- demoNode builds a plain http_request node record as createNode would. -/
def demoNode (id name : String) : Node :=
  ⟨id, "http_request", name, ⟨0, 0⟩, [], none, none, none, ["input"], ["output"]⟩

/-- c1State holds nodes A, B, C and connections A to B and B to C. -/
def c1State : WorkflowEditor :=
  { initialEditor with
    nodeTypes := [("http_request", dataType)],
    nodes := [("node_1", demoNode "node_1" "A"), ("node_2", demoNode "node_2" "B"),
      ("node_3", demoNode "node_3" "C")],
    nodeCounter := 3,
    connections := [("c1", ⟨"c1", "node_1", "output", "node_2", "input"⟩),
      ("c2", ⟨"c2", "node_2", "output", "node_3", "input"⟩)] }

/-- c2DragState is c1State in the middle of a connection gesture started
from the output handle of node_1. -/
def c2DragState : WorkflowEditor :=
  { c1State with
    isConnecting := true,
    connectionStart := some ⟨"node_1", "output"⟩ }

/-- c4State holds one connection c1 between node_1 and node_2. -/
def c4State : WorkflowEditor :=
  { c1State with
    connections := [("c1", ⟨"c1", "node_1", "output", "node_2", "input"⟩)] }

/-- C1: for every node present in the store, deleteNode removes the node and
exactly the connections whose source or target is that node (the others and
all other nodes survive unchanged), so no connection referencing the node
remains observable afterwards. -/
theorem c1_deleteNode_cascades (st : WorkflowEditor) (nodeId : String) (node : Node)
    (hmem : mapGet st.nodes nodeId = some node)
    (hnd : (st.connections.map Prod.fst).Nodup) :
    mapGet (deleteNode st nodeId).nodes nodeId = none ∧
    (∀ m, m ≠ nodeId → mapGet (deleteNode st nodeId).nodes m = mapGet st.nodes m) ∧
    (deleteNode st nodeId).connections =
      st.connections.filter fun p =>
        decide ¬(p.2.source = nodeId ∨ p.2.target = nodeId) := by
  refine ⟨?_, ?_, deleteNode_connections st nodeId hnd⟩
  · rw [deleteNode_nodes]
    exact mapGet_mapDelete_self _ _
  · intro m hm
    rw [deleteNode_nodes]
    exact mapGet_mapDelete_ne _ _ _ hm

/-- C1 witness: deleting B from the A to B to C chain leaves A and C and no
connections at all. -/
theorem c1_deleteNode_cascades_witness :
    (mapGet c1State.nodes "node_2" = some (demoNode "node_2" "B") ∧
      (c1State.connections.map Prod.fst).Nodup) ∧
    (mapGet (deleteNode c1State "node_2").nodes "node_2" = none ∧
      (∀ m, m ≠ "node_2" →
        mapGet (deleteNode c1State "node_2").nodes m = mapGet c1State.nodes m) ∧
      (deleteNode c1State "node_2").connections =
        c1State.connections.filter fun p =>
          decide ¬(p.2.source = "node_2" ∨ p.2.target = "node_2")) :=
  ⟨⟨rfl, by decide⟩,
    c1_deleteNode_cascades c1State "node_2" (demoNode "node_2" "B") rfl (by decide)⟩

/-- C2 counterexample: addConnection called with the same node as source and
target does create a connection (on a store holding node_1 with ports input
and output), so the claim that it always returns rejected is false. -/
theorem c2_counterexample :
    (addConnection c1State "node_1" "output" "node_1" "input").1.connections.length =
      c1State.connections.length + 1 ∧
    mapGet (addConnection c1State "node_1" "output" "node_1" "input").1.connections
        "connection_1" =
      some ⟨"connection_1", "node_1", "output", "node_1", "input"⟩ :=
  ⟨rfl, rfl⟩

/-- C2 amended: the self-loop guard lives in finishConnection, which leaves
the connection set unchanged when the drop target sits on the gesture's own
source node; addConnection itself stores a self-loop when called directly
with equal node ids. -/
theorem c2_self_loop_guard (st : WorkflowEditor) (cs : ConnectionStart)
    (tHandle sp tp : String) (h : st.connectionStart = some cs) :
    (finishConnection st (some ⟨true, cs.nodeId, tHandle⟩)).connections =
      st.connections ∧
    mapGet (addConnection st cs.nodeId sp cs.nodeId tp).1.connections
        (mkConnId (st.connSeq + 1)) =
      some ⟨mkConnId (st.connSeq + 1), cs.nodeId, sp, cs.nodeId, tp⟩ := by
  constructor
  · simp [finishConnection, h]
  · exact mapGet_mapSet_self _ _ _

/-- C2 witness: a gesture started at node_1 and dropped on an input handle
of node_1 creates nothing, while a direct addConnection with node_1 twice
stores a self-loop. -/
theorem c2_self_loop_guard_witness :
    c2DragState.connectionStart = some ⟨"node_1", "output"⟩ ∧
    ((finishConnection c2DragState (some ⟨true, "node_1", "input"⟩)).connections =
        c2DragState.connections ∧
      mapGet (addConnection c2DragState "node_1" "out" "node_1" "inp").1.connections
          (mkConnId (c2DragState.connSeq + 1)) =
        some ⟨mkConnId (c2DragState.connSeq + 1), "node_1", "out", "node_1", "inp"⟩) :=
  ⟨rfl, c2_self_loop_guard c2DragState ⟨"node_1", "output"⟩ "input" "out" "inp" rfl⟩

/-- C3 counterexample: on the empty store (no nodes at all, so both node ids
are unknown and no port list contains the given ports) addConnection still
creates a connection, so the claim that it rejects as a no-op is false. -/
theorem c3_counterexample :
    initialEditor.nodes = [] ∧
    (addConnection initialEditor "ghostA" "p" "ghostB" "q").1.connections =
      [("connection_1", ⟨"connection_1", "ghostA", "p", "ghostB", "q"⟩)] :=
  ⟨rfl, rfl⟩

/-- C3 amended: addConnection validates nothing: for every store and any
four strings it stores a connection with exactly those endpoints under a
fresh id and returns that id, leaving every other connection and the node
set untouched. -/
theorem c3_no_validation (st : WorkflowEditor) (s sp t tp : String) :
    mapGet (addConnection st s sp t tp).1.connections
        (addConnection st s sp t tp).2 =
      some ⟨(addConnection st s sp t tp).2, s, sp, t, tp⟩ ∧
    (∀ cid, cid ≠ (addConnection st s sp t tp).2 →
      mapGet (addConnection st s sp t tp).1.connections cid =
        mapGet st.connections cid) ∧
    (addConnection st s sp t tp).1.nodes = st.nodes := by
  refine ⟨mapGet_mapSet_self _ _ _, ?_, rfl⟩
  intro cid hcid
  exact mapGet_mapSet_ne _ _ _ _ hcid

/-- C4 counterexample: deleting connection c1 twice raises nothing; the
second call returns the very same state (no NotFoundError exists anywhere in
the editor), so the claim that the second call fails is false. -/
theorem c4_counterexample :
    (deleteConnection c4State "c1").connections = [] ∧
    deleteConnection (deleteConnection c4State "c1") "c1" =
      deleteConnection c4State "c1" :=
  ⟨rfl, rfl⟩

/-- C4 amended: deleteConnection on an existing id removes it, and the
second call on the now-missing id is a silent no-op returning the state
unchanged rather than failing. -/
theorem c4_delete_twice (st : WorkflowEditor) (cid : String) (c : Connection)
    (h : mapGet st.connections cid = some c) :
    mapGet (deleteConnection st cid).connections cid = none ∧
    deleteConnection (deleteConnection st cid) cid = deleteConnection st cid := by
  have h1 : mapGet (deleteConnection st cid).connections cid = none := by
    rw [deleteConnection_connections]
    exact mapGet_mapDelete_self _ _
  exact ⟨h1, deleteConnection_of_missing h1 (deleteConnection_selected_ne st cid)
    (deleteConnection_isDirty st cid)⟩

/-- C4 witness: the two-step deletion of c1 on the one-connection store. -/
theorem c4_delete_twice_witness :
    mapGet c4State.connections "c1" =
      some ⟨"c1", "node_1", "output", "node_2", "input"⟩ ∧
    (mapGet (deleteConnection c4State "c1").connections "c1" = none ∧
      deleteConnection (deleteConnection c4State "c1") "c1" =
        deleteConnection c4State "c1") :=
  ⟨rfl, c4_delete_twice c4State "c1" ⟨"c1", "node_1", "output", "node_2", "input"⟩ rfl⟩

/-- c5Init is a fresh editor with only http_request registered. -/
def c5Init : WorkflowEditor :=
  { initialEditor with nodeTypes := [("http_request", dataType)] }

/-- c5Data is a snapshot holding the single node node_5. -/
def c5Data : WorkflowData :=
  ⟨[⟨"node_5", "http_request", "N", ⟨0, 0⟩, none, none, none, none⟩], []⟩

/-- c5Loaded is the editor state produced by loading c5Data into c5Init. -/
def c5Loaded : WorkflowEditor :=
  { c5Init with
    nodes := [("node_5",
      ⟨"node_5", "http_request", "N", ⟨0, 0⟩, [], some "", some false, some 30,
        ["input"], ["output"]⟩)],
    nodeCounter := 5 }

/-- C5 counterexample: loading a snapshot whose highest node id is node_5
sets nodeCounter to exactly 5, not to at least one greater than the maximum
numeric id as the claim states. -/
theorem c5_counterexample :
    (loadWorkflow c5Init c5Data).map (fun s => s.nodeCounter) = some 5 ∧
    ¬∀ s', loadWorkflow c5Init c5Data = some s' → 5 + 1 ≤ s'.nodeCounter := by
  have h0 : (loadWorkflow c5Init c5Data).map (fun s => s.nodeCounter) = some 5 := rfl
  refine ⟨h0, fun hall => ?_⟩
  cases hE : loadWorkflow c5Init c5Data with
  | none => rw [hE] at h0; cases h0
  | some s' =>
    have h6 := hall s' hE
    rw [hE] at h0
    simp only [Option.map_some'] at h0
    have h5 : s'.nodeCounter = 5 := Option.some.inj h0
    omega

/-- C5 amended: after a successful load the counter equals at least every
numeric id parsed from the restored nodes (it is set to the maximum, not the
maximum plus one), and because createNode pre-increments the counter before
rendering the id, no id allocated by any later sequence of createNode calls
collides with a restored node id. -/
theorem c5_no_id_collision (st0 st1 : WorkflowEditor) (wd : WorkflowData)
    (h : loadWorkflow st0 wd = some st1) (reqs : List (NodeType × Point)) :
    (∀ nd ∈ wd.nodes, ∀ m, nodeIdNum nd.id = some m → m ≤ st1.nodeCounter) ∧
    ∀ id ∈ (runAddNodes st1 reqs).2, ∀ nd ∈ wd.nodes, id ≠ nd.id := by
  obtain ⟨s1, hfold, hconn⟩ := loadWorkflow_elim h
  obtain ⟨-, -, -, hid⟩ := foldlM_loadNodes_some hfold
  have hcount : st1.nodeCounter = s1.nodeCounter := by
    rw [hconn]
    exact foldl_loadConnections_nodeCounter _ _
  constructor
  · intro nd hnd m hm
    rw [hcount]
    exact hid nd hnd m hm
  · intro id hid2 nd hnd heq
    obtain ⟨j, hj, hjlt⟩ := runAddNodes_ids hid2
    subst hj
    have hparse : nodeIdNum nd.id = some j := heq ▸ nodeIdNum_mkNodeId j
    have hle := hid nd hnd j hparse
    rw [hcount] at hjlt
    omega

/-- C5 witness: loading the node_5 snapshot and then adding one more node
allocates node_6, which differs from the restored id. -/
theorem c5_no_id_collision_witness :
    loadWorkflow c5Init c5Data = some c5Loaded ∧
    ((∀ nd ∈ c5Data.nodes, ∀ m, nodeIdNum nd.id = some m → m ≤ c5Loaded.nodeCounter) ∧
      ∀ id ∈ (runAddNodes c5Loaded [(dataType, ⟨0, 0⟩)]).2,
        ∀ nd ∈ c5Data.nodes, id ≠ nd.id) :=
  ⟨rfl, c5_no_id_collision c5Init c5Loaded c5Data rfl [(dataType, ⟨0, 0⟩)]⟩

theorem finishConnection_nodes (st : WorkflowEditor) (tgt : Option DropTarget) :
    (finishConnection st tgt).nodes = st.nodes := by
  unfold finishConnection
  cases tgt with
  | none => rfl
  | some t =>
    dsimp only
    split
    · cases hcs : st.connectionStart with
      | none => simp [hcs]
      | some cs =>
        simp only [hcs]
        split <;> rfl
    · rfl

theorem onCanvasMouseUp_nodes (st : WorkflowEditor) (tgt : Option DropTarget) :
    (onCanvasMouseUp st tgt).nodes = st.nodes := by
  cases hP : st.isPanning <;> cases hD : st.isDragging <;> cases hC : st.isConnecting <;>
    simp [onCanvasMouseUp, markDirty, hP, hD, hC, finishConnection_nodes]

/-- c6State is c1State mid-drag: node_1 selected and dragging, mouse last
seen at the origin, zoom 1, grid 20. -/
def c6State : WorkflowEditor :=
  { c1State with
    isDragging := true,
    selectedNode := some "node_1",
    nodes := [("node_1", demoNode "node_1" "A")],
    connections := [] }

/-- C6 amended: a mouse move during a drag stores the grid-snapped position
(an integer multiple of gridSize on both axes) on that very move, and
mouse-up (drag end) changes no node position at all. -/
theorem c6_snap_on_every_move (st : WorkflowEditor) (client : Point) (i : String)
    (node : Node) (hd : st.isDragging = true) (hp : st.isPanning = false)
    (hsel : st.selectedNode = some i) (hn : mapGet st.nodes i = some node) :
    (mapGet (onCanvasMouseMove st client).nodes i =
      some { node with position :=
        ⟨snapCoord st.gridSize
            (node.position.x + (client.x - st.lastMousePos.x) / st.zoomLevel),
          snapCoord st.gridSize
            (node.position.y + (client.y - st.lastMousePos.y) / st.zoomLevel)⟩ }) ∧
    (∃ kx ky : ℤ,
      mapGet (onCanvasMouseMove st client).nodes i =
        some { node with position :=
          ⟨(kx : ℚ) * st.gridSize, (ky : ℚ) * st.gridSize⟩ }) ∧
    ∀ tgt, (onCanvasMouseUp st tgt).nodes = st.nodes := by
  have h1 : mapGet (onCanvasMouseMove st client).nodes i =
      some { node with position :=
        ⟨snapCoord st.gridSize
            (node.position.x + (client.x - st.lastMousePos.x) / st.zoomLevel),
          snapCoord st.gridSize
            (node.position.y + (client.y - st.lastMousePos.y) / st.zoomLevel)⟩ } := by
    unfold onCanvasMouseMove
    simp only [hp, Bool.false_eq_true, if_false, hd, if_true, hsel, hn]
    exact mapGet_mapSet_self _ _ _
  refine ⟨h1, ?_, fun tgt => onCanvasMouseUp_nodes st tgt⟩
  exact ⟨jsRound ((node.position.x + (client.x - st.lastMousePos.x) / st.zoomLevel) /
      st.gridSize),
    jsRound ((node.position.y + (client.y - st.lastMousePos.y) / st.zoomLevel) /
      st.gridSize), h1⟩

/-- C6 witness: dragging node_1 from the origin with the mouse at 27, 33
stores the snapped position 20, 40 immediately, and mouse-up leaves the node
map untouched. -/
theorem c6_snap_on_every_move_witness :
    (c6State.isDragging = true ∧ c6State.isPanning = false ∧
      c6State.selectedNode = some "node_1" ∧
      mapGet c6State.nodes "node_1" = some (demoNode "node_1" "A")) ∧
    ((mapGet (onCanvasMouseMove c6State ⟨27, 33⟩).nodes "node_1" =
      some { demoNode "node_1" "A" with position :=
        ⟨snapCoord c6State.gridSize
            ((demoNode "node_1" "A").position.x +
              ((⟨27, 33⟩ : Point).x - c6State.lastMousePos.x) / c6State.zoomLevel),
          snapCoord c6State.gridSize
            ((demoNode "node_1" "A").position.y +
              ((⟨27, 33⟩ : Point).y - c6State.lastMousePos.y) / c6State.zoomLevel)⟩ }) ∧
    (∃ kx ky : ℤ,
      mapGet (onCanvasMouseMove c6State ⟨27, 33⟩).nodes "node_1" =
        some { demoNode "node_1" "A" with position :=
          ⟨(kx : ℚ) * c6State.gridSize, (ky : ℚ) * c6State.gridSize⟩ }) ∧
    ∀ tgt, (onCanvasMouseUp c6State tgt).nodes = c6State.nodes) :=
  ⟨⟨rfl, rfl, rfl, rfl⟩,
    c6_snap_on_every_move c6State ⟨27, 33⟩ "node_1" (demoNode "node_1" "A")
      rfl rfl rfl rfl⟩

/-- C6 counterexample: on that very intermediate move the stored position is
the snapped 20, 40 and not the raw 27, 33, so the claim that intermediate
moves keep the raw unsnapped position is false. -/
theorem c6_counterexample :
    mapGet (onCanvasMouseMove c6State ⟨27, 33⟩).nodes "node_1" =
      some { demoNode "node_1" "A" with position := ⟨20, 40⟩ } ∧
    mapGet (onCanvasMouseMove c6State ⟨27, 33⟩).nodes "node_1" ≠
      some { demoNode "node_1" "A" with position := ⟨27, 33⟩ } := by
  have h1 := (c6_snap_on_every_move c6State ⟨27, 33⟩ "node_1"
    (demoNode "node_1" "A") rfl rfl rfl rfl).1
  have hx : snapCoord c6State.gridSize
      ((demoNode "node_1" "A").position.x +
        ((⟨27, 33⟩ : Point).x - c6State.lastMousePos.x) / c6State.zoomLevel) = 20 := by
    norm_num [c6State, c1State, initialEditor, demoNode, snapCoord, jsRound, Rat.floor]
  have hy : snapCoord c6State.gridSize
      ((demoNode "node_1" "A").position.y +
        ((⟨27, 33⟩ : Point).y - c6State.lastMousePos.y) / c6State.zoomLevel) = 40 := by
    norm_num [c6State, c1State, initialEditor, demoNode, snapCoord, jsRound, Rat.floor]
  rw [h1, hx, hy]
  constructor
  · rfl
  · intro hc
    rw [Option.some.injEq] at hc
    have hpos : (⟨20, 40⟩ : Point) = ⟨27, 33⟩ := congrArg Node.position hc
    have : (20 : ℚ) = 27 := congrArg Point.x hpos
    norm_num at this

attribute [ext] Point WorkflowEditor

/-- c7State is a fresh editor already at the maximum zoom 3. -/
def c7State : WorkflowEditor := { initialEditor with zoomLevel := 3 }

/-- C7 counterexample: at zoomLevel 3 (inside the legal range) with factor 2
(inside the claimed factor range) the round trip lands on zoomLevel 3/2, not
back on 3, because the first zoom clamps at the 3.0 ceiling; the claim as
stated over every factor in the range is false. -/
theorem c7_counterexample :
    ((1 : ℚ) / 2 ≤ 2 ∧ (2 : ℚ) ≤ 2) ∧
    (zoomAt (zoomAt c7State ⟨0, 0⟩ 2) ⟨0, 0⟩ (1 / 2)).zoomLevel = 3 / 2 ∧
    (3 / 2 : ℚ) ≠ c7State.zoomLevel := by
  refine ⟨⟨by norm_num, by norm_num⟩, ?_, by norm_num [c7State, initialEditor]⟩
  norm_num [zoomAt, c7State, initialEditor, min_def, max_def]

/-- C7 amended: whenever the multiplied zoom stays inside the clamp range
(so neither call clamps), zoomAt at a point with factor f followed by zoomAt
at the same point with 1/f restores the whole editor state exactly. -/
theorem c7_zoom_roundtrip (st : WorkflowEditor) (p : Point) (f : ℚ)
    (hf1 : 1 / 2 ≤ f) (hf2 : f ≤ 2)
    (hz1 : 1 / 10 ≤ st.zoomLevel) (hz2 : st.zoomLevel ≤ 3)
    (hlo : 1 / 10 ≤ st.zoomLevel * f) (hhi : st.zoomLevel * f ≤ 3) :
    zoomAt (zoomAt st p f) p (1 / f) = st := by
  have hf0 : f ≠ 0 := ne_of_gt (lt_of_lt_of_le (by norm_num) hf1)
  have hz0 : st.zoomLevel ≠ 0 := ne_of_gt (lt_of_lt_of_le (by norm_num) hz1)
  have h1 : zoomAt st p f =
      { st with
        canvasOffset :=
          ⟨p.x - (p.x - st.canvasOffset.x) * (st.zoomLevel * f / st.zoomLevel),
            p.y - (p.y - st.canvasOffset.y) * (st.zoomLevel * f / st.zoomLevel)⟩,
        zoomLevel := st.zoomLevel * f } := by
    unfold zoomAt
    rw [min_eq_right hhi, max_eq_right hlo]
  rw [h1]
  unfold zoomAt
  dsimp only
  have hmul : st.zoomLevel * f * (1 / f) = st.zoomLevel := by field_simp
  rw [hmul, min_eq_right hz2, max_eq_right hz1]
  ext <;> dsimp only <;> try rfl
  · field_simp
    ring
  · field_simp
    ring

/-- C7 witness: from zoom 1 at point 5, 7 with factor 2 the round trip is
the identity on the whole state. -/
theorem c7_zoom_roundtrip_witness :
    ((1 : ℚ) / 2 ≤ 2 ∧ (2 : ℚ) ≤ 2 ∧ (1 : ℚ) / 10 ≤ initialEditor.zoomLevel ∧
      initialEditor.zoomLevel ≤ 3 ∧ (1 : ℚ) / 10 ≤ initialEditor.zoomLevel * 2 ∧
      initialEditor.zoomLevel * 2 ≤ 3) ∧
    zoomAt (zoomAt initialEditor ⟨5, 7⟩ 2) ⟨5, 7⟩ (1 / 2) = initialEditor :=
  ⟨⟨by norm_num, by norm_num, by norm_num [initialEditor], by norm_num [initialEditor],
      by norm_num [initialEditor], by norm_num [initialEditor]⟩,
    c7_zoom_roundtrip initialEditor ⟨5, 7⟩ 2 (by norm_num) (by norm_num)
      (by norm_num [initialEditor]) (by norm_num [initialEditor])
      (by norm_num [initialEditor]) (by norm_num [initialEditor])⟩

/-- C8: a node created from any descriptor gets no inputs exactly for the
trigger category and one generic input otherwise, and the true and false
outputs exactly for the condition type name and one generic output otherwise
(the switch branch of the source returns the same generic output); both
editor implementations define the same port rules, and the concrete
webhook_trigger and http_request descriptors give the claimed ports. -/
theorem c8_port_rules (t : NodeType) (p : Point) (st : WorkflowEditor) :
    (mapGet (createNode st t p).1.nodes (createNode st t p).2 =
      some ⟨mkNodeId (st.nodeCounter + 1), t.name, t.display_name, p,
        getDefaultConfig t, none, none, none,
        if t.category = "trigger" then [] else ["input"],
        if t.name = "condition" then ["true", "false"] else ["output"]⟩) ∧
    (MainEditor.getNodeInputs t = getNodeInputs t ∧
      MainEditor.getNodeOutputs t = getNodeOutputs t) ∧
    (getNodeInputs triggerType = [] ∧ getNodeOutputs triggerType = ["output"] ∧
      getNodeInputs dataType = ["input"] ∧ getNodeOutputs dataType = ["output"]) := by
  have houts : getNodeOutputs t =
      if t.name = "condition" then ["true", "false"] else ["output"] := by
    unfold getNodeOutputs
    split
    · rfl
    · split <;> rfl
  refine ⟨?_, ⟨rfl, rfl⟩, by decide, by decide, by decide, by decide⟩
  rw [← houts]
  exact mapGet_mapSet_self _ _ _

/-- c9Data is a snapshot with one node and one connection whose
sourceHandle is missing and whose targetHandle is the empty string. -/
def c9Data : WorkflowData :=
  ⟨[⟨"node_1", "http_request", "N", ⟨0, 0⟩, none, none, none, none⟩],
    [⟨"c1", "node_1", none, "node_1", some ""⟩]⟩

/-- c9Loaded is the editor state produced by loading c9Data into c5Init. -/
def c9Loaded : WorkflowEditor :=
  { c5Init with
    nodes := [("node_1",
      ⟨"node_1", "http_request", "N", ⟨0, 0⟩, [], some "", some false, some 30,
        ["input"], ["output"]⟩)],
    nodeCounter := 1,
    connections := [("c1", ⟨"c1", "node_1", "output", "node_1", "input"⟩)] }

/-- C9: the connection loop of loadWorkflow never rejects an entry; missing
or falsy handles are replaced by output and input, so after a load into a
store with no prior connections every stored connection has non-empty handle
names. -/
theorem c9_load_handle_defaults (st st1 : WorkflowEditor) (wd : WorkflowData)
    (hload : loadWorkflow st wd = some st1) (hempty : st.connections = []) :
    (∀ s cd, mapGet (loadWorkflowConnection s cd).connections cd.id =
      some ⟨cd.id, cd.source, jsOrString cd.sourceHandle "output", cd.target,
        jsOrString cd.targetHandle "input"⟩) ∧
    ∀ p ∈ st1.connections, p.2.sourceHandle ≠ "" ∧ p.2.targetHandle ≠ "" := by
  constructor
  · intro s cd
    unfold loadWorkflowConnection
    dsimp only
    exact mapGet_mapSet_self _ _ _
  · obtain ⟨s1, hfold, hconn⟩ := loadWorkflow_elim hload
    obtain ⟨-, hc1, -, -⟩ := foldlM_loadNodes_some hfold
    subst hconn
    apply foldl_loadConnections_handles
    rw [hc1, hempty]
    simp

/-- C9 witness: loading c9Data stores connection c1 with handles output and
input, both non-empty. -/
theorem c9_load_handle_defaults_witness :
    (loadWorkflow c5Init c9Data = some c9Loaded ∧ c5Init.connections = []) ∧
    ((∀ s cd, mapGet (loadWorkflowConnection s cd).connections cd.id =
      some ⟨cd.id, cd.source, jsOrString cd.sourceHandle "output", cd.target,
        jsOrString cd.targetHandle "input"⟩) ∧
    ∀ p ∈ c9Loaded.connections, p.2.sourceHandle ≠ "" ∧ p.2.targetHandle ≠ "") :=
  ⟨⟨rfl, rfl⟩, c9_load_handle_defaults c5Init c9Loaded c9Data rfl rfl⟩

/-- c10Data is a snapshot holding one node with the unregistered type
ghost. -/
def c10Data : WorkflowData :=
  ⟨[⟨"node_1", "ghost", "G", ⟨0, 0⟩, none, none, none, none⟩], []⟩

/-- C10: loading a snapshot that contains a node whose type is not in the
registry has no defined result (the port derivation dereferences a missing
descriptor), rather than loading the node with default ports. -/
theorem c10_load_unregistered_type (st : WorkflowEditor) (wd : WorkflowData)
    (nd : NodeData) (hmem : nd ∈ wd.nodes)
    (hmiss : mapGet st.nodeTypes nd.type = none) :
    loadWorkflow st wd = none := by
  rw [loadWorkflow, foldlM_loadNodes_none hmem hmiss]
  rfl

/-- C10 witness: loading the ghost-typed snapshot into the fresh editor with
an empty registry yields no state. -/
theorem c10_load_unregistered_type_witness :
    ((⟨"node_1", "ghost", "G", ⟨0, 0⟩, none, none, none, none⟩ : NodeData) ∈
        c10Data.nodes ∧
      mapGet initialEditor.nodeTypes "ghost" = none) ∧
    loadWorkflow initialEditor c10Data = none :=
  ⟨⟨List.mem_cons_self _ _, rfl⟩,
    c10_load_unregistered_type initialEditor c10Data
      ⟨"node_1", "ghost", "G", ⟨0, 0⟩, none, none, none, none⟩
      (List.mem_cons_self _ _) rfl⟩

end WorkflowApp
